import Mathlib

/-!
Shallow embedding of the Axiom intent CLI (src/axiom.py and src/intent_core.py).

Conventions of the embedding:
* Filesystem paths are lists of components in leaf-to-root order, so the
  filesystem root is the empty list and a path's parent is its tail.
* The SQLite database file is modelled by the set of table names present in
  the file plus the rows of the intents table (the only table any operation
  reads or writes).
* The meta.json file is modelled by the outcome of reading and JSON-parsing
  it: missing file, blank content, unparsable content, or a parsed document.
* SQLite errors that the Python code does not catch (no such table, UNIQUE
  constraint violations) and uncaught Python exceptions are modelled as
  error results with distinctive messages, since either way the process
  terminates abnormally.
-/

/-- Rows of the intents table, with the columns created by
create_database_schema in src/intent_core.py. -/
structure IntentRecord where
  id : String
  title : String
  problem : String
  context : String
  constraints : String
  status : String
  created_at : String
  updated_at : String
deriving DecidableEq, Repr

/-- State of the intent.db file: which tables exist in it, and the rows of
the intents table. -/
structure Database where
  tables : List String
  intents : List IntentRecord
deriving DecidableEq, Repr

/-- Minimal JSON value model, enough to describe what json.loads returns. -/
inductive Json where
  | jnull : Json
  | jbool : Bool → Json
  | jnum : Int → Json
  | jstr : String → Json
  | jarr : List Json → Json
  | jobj : List (String × Json) → Json

/-- Observable state of the meta.json file as read by ensure_meta_json:
absent, whitespace-only, raising json.JSONDecodeError, or parsed. -/
inductive MetaDoc where
  | missing : MetaDoc
  | blank : MetaDoc
  | malformed : MetaDoc
  | doc : Json → MetaDoc

/-- State of the .intent directory: whether the directory itself exists,
the intent.db file (none when absent), and the meta.json file. -/
structure IntentState where
  dirExists : Bool
  db : Option Database
  meta : MetaDoc

/-- Embedding of find_repo_root (src/intent_core.py lines 15-36).  Paths are
leaf-to-root component lists and the filesystem root is [].  The Python loop
runs while current != current.parent, so it stops before examining the root
itself.  The gitDirs argument lists the directories containing a .git
directory. -/
def find_repo_root (gitDirs : List (List String)) : List String → Option (List String)
  | [] => none
  | c :: rest => if (c :: rest) ∈ gitDirs then some (c :: rest) else find_repo_root gitDirs rest

/-- The sequence of directories the walk of find_repo_root visits, from the
start downward, excluding the filesystem root []. -/
def searchChain : List String → List (List String)
  | [] => []
  | c :: rest => (c :: rest) :: searchChain rest

/-- The characters Python str.strip removes: CPython's Unicode whitespace
set (Py_UNICODE_ISSPACE), namely 0x09-0x0D, 0x1C-0x1F, the space, 0x85,
0xA0, 0x1680, 0x2000-0x200A, 0x2028, 0x2029, 0x202F, 0x205F and 0x3000. -/
def pyIsSpace (c : Char) : Bool :=
  c == ' ' || c == '\t' || c == '\n' || c == '\u000B' || c == '\u000C' || c == '\r' ||
  c == '\u001C' || c == '\u001D' || c == '\u001E' || c == '\u001F' || c == '\u0085' ||
  c == '\u00A0' || c == '\u1680' || c == '\u2000' || c == '\u2001' || c == '\u2002' ||
  c == '\u2003' || c == '\u2004' || c == '\u2005' || c == '\u2006' || c == '\u2007' ||
  c == '\u2008' || c == '\u2009' || c == '\u200A' || c == '\u2028' || c == '\u2029' ||
  c == '\u202F' || c == '\u205F' || c == '\u3000'

/-- Python str.strip on the character list of a string: drop the Python
whitespace characters from both ends. -/
def stripChars (l : List Char) : List Char :=
  ((l.dropWhile pyIsSpace).reverse.dropWhile pyIsSpace).reverse

/-- Python str.strip. -/
def pyStrip (s : String) : String :=
  String.mk (stripChars s.data)

/-- Python str.join. -/
def joinSep (sep : String) : List String → String
  | [] => ""
  | x :: xs => if xs.isEmpty then x else x ++ sep ++ joinSep sep xs

/-- Every suffix of a character list, longest first, ending with []. -/
def allSuffixes : List Char → List (List Char)
  | [] => [[]]
  | c :: s => (c :: s) :: allSuffixes s

/-- Model of the SQLite LIKE operator (default configuration, as used by the
query in find_intent_by_prefix): the percent character matches any sequence
of characters, the underscore matches any single character, and other
characters match up to ASCII case folding. -/
def likeMatch : List Char → List Char → Bool
  | [], s => s.isEmpty
  | c :: ps, s =>
    if c = '%' then (allSuffixes s).any (fun t => likeMatch ps t)
    else if c = '_' then
      match s with
      | [] => false
      | _ :: s2 => likeMatch ps s2
    else
      match s with
      | [] => false
      | d :: s2 => (c.toLower == d.toLower) && likeMatch ps s2

/-- Message of the sys.exit in cmd_new, cmd_list and cmd_show when intent.db
is absent. -/
def notInitMsg : String :=
  "ERROR: .intent/ not initialized. Run 'axiom init' first."

/-- Stand-in for the uncaught sqlite3.OperationalError raised when a query
touches the intents table and it does not exist. -/
def noSuchTableMsg : String :=
  "sqlite3.OperationalError: no such table: intents"

/-- Stand-in for the uncaught sqlite3.IntegrityError raised when the INSERT
in cmd_new collides on the primary key. -/
def integrityMsg : String :=
  "sqlite3.IntegrityError: UNIQUE constraint failed: intents.id"

/-- Message of the sys.exit in cmd_new when the stripped title is empty. -/
def titleRequiredMsg : String :=
  "ERROR: Title is required."

/-- Message of the sys.exit in find_intent_by_prefix when no id matches. -/
def notFoundMsg (pfx : String) : String :=
  "ERROR: No intent found matching prefix '" ++ pfx ++ "'."

/-- Message of the sys.exit in find_intent_by_prefix when several ids match. -/
def ambiguousMsg (pfx : String) (ms : List String) : String :=
  "ERROR: Ambiguous prefix '" ++ pfx ++ "' matches " ++ toString ms.length ++
    " intents:\n  " ++ joinSep ("\n  ") ms

/-- Message of the sys.exit in cmd_show when the exact id lookup finds no row. -/
def intentNotFoundMsg (iid : String) : String :=
  "ERROR: Intent '" ++ iid ++ "' not found."

/-- The required table set of ensure_database_schema, in the creation order
of create_database_schema. -/
def requiredTables : List String :=
  ["intents", "assumptions", "decisions"]

/-- First line of the schema mismatch message of ensure_database_schema. -/
def mismatchHeader : String :=
  "ERROR: Database schema mismatch detected.\n"

/-- Fixed tail of the schema mismatch message of ensure_database_schema. -/
def mismatchTail : String :=
  "\nThis indicates a schema version conflict.\nDo not attempt automatic migration.\nManual intervention required.\n\nIf you need to reset, backup your data and delete intent.db"

/-- The schema mismatch message of ensure_database_schema (lines 130-140 of
src/intent_core.py). -/
def mismatchError (missing extra : List String) : String :=
  mismatchHeader ++
    (if missing.isEmpty then "" else "  Missing tables: " ++ joinSep (", ") missing ++ "\n") ++
    (if extra.isEmpty then "" else "  Unexpected tables: " ++ joinSep (", ") extra ++ "\n") ++
    mismatchTail

/-- Embedding of create_database_schema on a fresh file: CREATE TABLE for
each of the three required tables, no rows. -/
def create_database_schema : Database :=
  { tables := requiredTables, intents := [] }

/-- Embedding of ensure_database_schema (src/intent_core.py lines 104-141).
When the file exists, the sqlite_master query filters with
name IN ('intents', 'assumptions', 'decisions'), so existing is the
intersection of the file's table names with the required set; extra is the
part of existing outside the required set, which that filter makes empty. -/
def ensure_database_schema (odb : Option Database) : Except String Database :=
  match odb with
  | none => Except.ok create_database_schema
  | some db =>
    let existing := requiredTables.filter (fun t => t ∈ db.tables)
    if existing = requiredTables then Except.ok db
    else
      let missing := requiredTables.filter (fun t => t ∉ db.tables)
      let extra := existing.filter (fun t => t ∉ requiredTables)
      Except.error (mismatchError missing extra)

/-- Python substring membership: pat in s for strings, on character lists. -/
def isSubChars (pat : List Char) : List Char → Bool
  | [] => pat.isEmpty
  | c :: s => pat.isPrefixOf (c :: s) || isSubChars pat s

/-- Python substring membership on strings. -/
def strContainsSub (s pat : String) : Bool :=
  isSubChars pat.data s.data

/-- Python equality between a JSON value and a string (only equal strings
compare equal; values of other types are unequal, not an error). -/
def Json.isStrEq : Json → String → Bool
  | Json.jstr t, s => t == s
  | _, _ => false

/-- Python's in operator applied to a parsed JSON value, as in the field
check of ensure_meta_json: key membership for objects, element membership
for arrays, substring membership for strings, and a TypeError (modelled as
none) for numbers, booleans and null. -/
def pyIn (needle : String) : Json → Option Bool
  | Json.jobj l => some (l.any (fun p => p.1 == needle))
  | Json.jarr l => some (l.any (fun e => Json.isStrEq e needle))
  | Json.jstr s => some (strContainsSub s needle)
  | Json.jnum _ => none
  | Json.jbool _ => none
  | Json.jnull => none

/-- The all(field in data for field in required_fields) check of
ensure_meta_json, with Python's left-to-right short-circuit evaluation;
none models an uncaught TypeError. -/
def checkFields (j : Json) : Option Bool :=
  match pyIn ("repo_path") j with
  | none => none
  | some b1 =>
    if b1 then
      match pyIn ("created_at") j with
      | none => none
      | some b2 =>
        if b2 then pyIn ("schema_version") j
        else some false
    else some false

/-- The meta_data dictionary written by ensure_meta_json when it rewrites
the descriptor. -/
def freshMeta (repoPath now : String) : Json :=
  Json.jobj [(("repo_path"), Json.jstr repoPath), (("created_at"), Json.jstr now),
    (("schema_version"), Json.jstr ("0.1"))]

/-- Embedding of ensure_meta_json (src/intent_core.py lines 144-182).  The
repoPath argument is the resolved repo root and now the current timestamp;
none models the uncaught TypeError raised by the field check on a parsed
non-container document. -/
def ensure_meta_json (doc : MetaDoc) (repoPath now : String) : Option MetaDoc :=
  match doc with
  | MetaDoc.missing => some (MetaDoc.doc (freshMeta repoPath now))
  | MetaDoc.blank => some (MetaDoc.doc (freshMeta repoPath now))
  | MetaDoc.malformed => some (MetaDoc.doc (freshMeta repoPath now))
  | MetaDoc.doc j =>
    match checkFields j with
    | none => none
    | some true => some (MetaDoc.doc j)
    | some false => some (MetaDoc.doc (freshMeta repoPath now))

/-- Stand-in for the uncaught TypeError of the field check in
ensure_meta_json. -/
def typeErrorMsg : String :=
  "TypeError: argument is not iterable"

/-- Embedding of init_intent_structure (src/intent_core.py lines 185-211):
mkdir with exist_ok, then ensure_database_schema, then ensure_meta_json.
Filesystem failures (OSError) are environmental and outside the model. -/
def init_intent_structure (st : IntentState) (repoPath now : String) :
    Except String IntentState :=
  let st1 : IntentState := { st with dirExists := true }
  match ensure_database_schema st1.db with
  | Except.error e => Except.error e
  | Except.ok db =>
    match ensure_meta_json st1.meta repoPath now with
    | none => Except.error typeErrorMsg
    | some m => Except.ok { st1 with db := some db, meta := m }

/-- The id list returned by the SELECT id FROM intents WHERE id LIKE ? query
of find_intent_by_prefix, with the pattern built as prefix plus percent. -/
def prefixMatches (db : Database) (pfx : String) : List String :=
  (db.intents.map (fun r => r.id)).filter (fun i => likeMatch (pfx ++ ("%")).data i.data)

/-- Embedding of find_intent_by_prefix (src/axiom.py lines 153-183): the
LIKE query needs the intents table; then no match, a unique match and
several matches follow the Python if-chain. -/
def find_intent_by_prefix (db : Database) (pfx : String) : Except String String :=
  if ("intents") ∈ db.tables then
    match prefixMatches db pfx with
    | [] => Except.error (notFoundMsg pfx)
    | [x] => Except.ok x
    | x :: y :: rest => Except.error (ambiguousMsg pfx (x :: y :: rest))
  else Except.error noSuchTableMsg

/-- The exact-id path of cmd_show: the SELECT ... WHERE id = ? query plus
the not-found exit, applied to an already resolved id. -/
def show_exact (st : IntentState) (iid : String) : Except String IntentRecord :=
  match st.db with
  | none => Except.error notInitMsg
  | some db =>
    if ("intents") ∈ db.tables then
      match db.intents.find? (fun r => r.id == iid) with
      | some r => Except.ok r
      | none => Except.error (intentNotFoundMsg iid)
    else Except.error noSuchTableMsg

/-- Embedding of cmd_show (src/axiom.py lines 186-233): existence check on
intent.db, prefix resolution only for candidate lengths in [6, 36), then
exact lookup of the resolved id. -/
def cmd_show (st : IntentState) (intent_id : String) : Except String IntentRecord :=
  match st.db with
  | none => Except.error notInitMsg
  | some db =>
    let resolved : Except String String :=
      if 6 ≤ intent_id.length ∧ intent_id.length < 36 then find_intent_by_prefix db intent_id
      else Except.ok intent_id
    match resolved with
    | Except.error e => Except.error e
    | Except.ok iid =>
      if ("intents") ∈ db.tables then
        match db.intents.find? (fun r => r.id == iid) with
        | some r => Except.ok r
        | none => Except.error (intentNotFoundMsg iid)
      else Except.error noSuchTableMsg

/-- Embedding of cmd_new (src/axiom.py lines 74-114): existence check on
intent.db, strip and require the title, then INSERT one row with status
draft and both timestamps equal to now.  The interactive input is passed in
as arguments; iid is the generated uuid4 and now the current timestamp. -/
def cmd_new (st : IntentState) (title problem ctx constr iid now : String) :
    Except String (String × IntentState) :=
  match st.db with
  | none => Except.error notInitMsg
  | some db =>
    let t := pyStrip title
    if t = "" then Except.error titleRequiredMsg
    else if ("intents") ∈ db.tables then
      if db.intents.any (fun r => r.id == iid) then Except.error integrityMsg
      else
        Except.ok (iid,
          { st with db := some { db with intents :=
              db.intents ++ [{ id := iid, title := t, problem := problem,
                               context := ctx, constraints := constr, status := ("draft"),
                               created_at := now, updated_at := now }] } })
    else Except.error noSuchTableMsg

/-- Insertion into a list sorted by created_at descending. -/
def insertDesc (r : IntentRecord) : List IntentRecord → List IntentRecord
  | [] => [r]
  | x :: xs => if x.created_at ≤ r.created_at then r :: x :: xs else x :: insertDesc r xs

/-- Model of ORDER BY created_at DESC: a sort of the rows on the created_at
column, descending, comparing strings the way the default BINARY collation
does. -/
def sortByCreatedDesc : List IntentRecord → List IntentRecord
  | [] => []
  | x :: xs => insertDesc x (sortByCreatedDesc xs)

/-- The column projection of the SELECT in cmd_list: id, title, status,
created_at. -/
def listRow (r : IntentRecord) : String × String × String × String :=
  (r.id, r.title, r.status, r.created_at)

/-- Embedding of cmd_list (src/axiom.py lines 117-150): existence check on
intent.db, then the four projected columns of all rows ordered by
created_at descending. -/
def cmd_list (st : IntentState) : Except String (List (String × String × String × String)) :=
  match st.db with
  | none => Except.error notInitMsg
  | some db =>
    if ("intents") ∈ db.tables then
      Except.ok ((sortByCreatedDesc db.intents).map listRow)
    else Except.error noSuchTableMsg

/-- The row the INSERT of cmd_new adds, for a given (already stripped)
title, free-text fields, generated id and timestamp. -/
def newRec (title problem ctx constr iid now : String) : IntentRecord :=
  { id := iid, title := title, problem := problem, context := ctx,
    constraints := constr, status := ("draft"), created_at := now,
    updated_at := now }

/-- The intents rows of a state, for comparing operation outcomes. -/
def intentsOf (st : IntentState) : List IntentRecord :=
  match st.db with
  | some db => db.intents
  | none => []

/-- Field presence in the sense of the specification: the document is a JSON
object and the name is one of its keys. -/
def hasFieldSpec (j : Json) (name : String) : Bool :=
  match j with
  | Json.jobj l => l.any (fun p => p.1 == name)
  | _ => false

/-- The string s contains sub as a contiguous substring. -/
def containsData (s sub : String) : Prop :=
  ∃ a b : List Char, s.data = a ++ sub.data ++ b

/-- Sample full-length (36 character) intent id. -/
def idA : String := "aaaaaa11-0000-4000-8000-000000000000"

/-- Sample id sharing its first six characters with idA. -/
def idB : String := "aaaaaa22-0000-4000-8000-000000000000"

/-- Sample id with a first six characters of its own. -/
def idC : String := "bbbbbb33-0000-4000-8000-000000000000"

/-- Sample row with id idA. -/
def recA : IntentRecord :=
  { id := idA, title := ("Add retry logic"), problem := ("p1"), context := ("c1"),
    constraints := ("k1"), status := ("draft"), created_at := ("2024-01-01T10:00:00"),
    updated_at := ("2024-01-01T10:00:00") }

/-- Sample row with id idB. -/
def recB : IntentRecord :=
  { id := idB, title := ("Add rate limiting"), problem := ("p2"), context := ("c2"),
    constraints := ("k2"), status := ("draft"), created_at := ("2024-01-02T10:00:00"),
    updated_at := ("2024-01-02T10:00:00") }

/-- Sample row with id idC. -/
def recC : IntentRecord :=
  { id := idC, title := ("Use sqlite"), problem := ("p3"), context := ("c3"),
    constraints := ("k3"), status := ("draft"), created_at := ("2024-01-03T10:00:00"),
    updated_at := ("2024-01-03T10:00:00") }

/-- Sample database with the required tables and three rows. -/
def dbW : Database :=
  { tables := requiredTables, intents := [recA, recB, recC] }

/-- Sample valid meta.json document. -/
def metaW : Json :=
  Json.jobj [(("repo_path"), Json.jstr ("/repo")), (("created_at"), Json.jstr ("2024-01-01T09:00:00")),
    (("schema_version"), Json.jstr ("0.1"))]

/-- Sample fully initialized state. -/
def stW : IntentState :=
  { dirExists := true, db := some dbW, meta := MetaDoc.doc metaW }

/-- Sample state whose database carries an extra table and whose meta.json
is missing, but with the same rows as stW. -/
def stDrift : IntentState :=
  { dirExists := true,
    db := some { tables := requiredTables ++ [("legacy")], intents := [recA, recB, recC] },
    meta := MetaDoc.missing }

/-- Sample database containing the three required tables plus an extra one. -/
def dbBug : Database :=
  { tables := ["intents", "assumptions", "decisions", "legacy"], intents := [] }

/-- Sample initialized state with no rows. -/
def stEmpty : IntentState :=
  { dirExists := true, db := some { tables := requiredTables, intents := [] },
    meta := MetaDoc.doc metaW }

/-- Helper: a list's suffix list always contains the empty suffix, so the
emptiness test succeeds somewhere. -/
theorem allSuffixes_any_isEmpty (s : List Char) :
    (allSuffixes s).any (fun t => t.isEmpty) = true := by
  induction s with
  | nil => rfl
  | cons c s ih => simp [allSuffixes, ih]

/-- Helper: list isPrefixOf as an existential decomposition. -/
theorem isPrefixOf_true_iff (p : List Char) : ∀ s : List Char,
    p.isPrefixOf s = true ↔ ∃ t, s = p ++ t := by
  induction p with
  | nil => intro s; simp [List.isPrefixOf]
  | cons a as ih =>
    intro s
    cases s with
    | nil =>
      simp only [List.isPrefixOf]
      constructor
      · intro h; cases h
      · rintro ⟨t, ht⟩; cases ht
    | cons b bs =>
      simp only [List.isPrefixOf, Bool.and_eq_true, beq_iff_eq, ih bs]
      constructor
      · rintro ⟨rfl, t, rfl⟩; exact ⟨t, rfl⟩
      · rintro ⟨t, ht⟩
        injection ht with hb hbs
        exact ⟨hb.symm, t, hbs⟩

/-- Helper: a LIKE pattern made of ordinary characters followed by a single
trailing percent matches exactly the strings whose ASCII-lowered form
starts with the pattern's ASCII-lowered form. -/
theorem likeMatch_noWild (p : List Char) (hp : ∀ c ∈ p, c ≠ '%' ∧ c ≠ '_') :
    ∀ s : List Char,
    likeMatch (p ++ [('%')]) s = (p.map Char.toLower).isPrefixOf (s.map Char.toLower) := by
  induction p with
  | nil =>
    intro s
    simp [likeMatch, allSuffixes_any_isEmpty s, List.isPrefixOf]
  | cons a as ih =>
    have ha := hp a (List.mem_cons_self a as)
    have has : ∀ c ∈ as, c ≠ '%' ∧ c ≠ '_' := fun c hc => hp c (List.mem_cons_of_mem a hc)
    intro s
    cases s with
    | nil => simp [likeMatch, ha.1, ha.2, List.isPrefixOf]
    | cons d s2 =>
      simp only [List.cons_append, likeMatch, if_neg ha.1, if_neg ha.2, List.map_cons,
        List.isPrefixOf]
      exact congrArg (fun b => (a.toLower == d.toLower) && b) (ih has s2)

/-- Claim C1: at the failing input, a database containing the three required
tables plus an unexpected extra table named legacy is accepted silently by
ensure_database_schema, unchanged and error-free, although its table set
differs from the required set: the sqlite_master query filters names to the
required set, so the Unexpected-tables branch of the error message can
never fire. -/
theorem c1_extra_table_silently_accepted :
    ensure_database_schema (some dbBug) = Except.ok dbBug ∧
    (("legacy") ∈ dbBug.tables ∧ (("legacy") ∉ requiredTables)) := by
  exact ⟨rfl, by decide, by decide⟩

/-- Claim C2 counterexample: with the version-control marker present only at
the filesystem root (the empty path in leaf-to-root representation), the
locator started one level below the root fails with the not-a-repository
outcome instead of returning the root. -/
theorem c2_root_marker_not_found :
    (([] : List String) ∈ [([] : List String)]) ∧
    find_repo_root [([] : List String)] [("a")] = none := by
  exact ⟨by decide, rfl⟩

/-- Claim C2 (amended): the locator examines the starting directory and each
of its ancestors from nearest to farthest, excluding the filesystem root
itself, and returns the first examined directory carrying the marker; when
no examined directory carries it — even if the root does — it fails. -/
theorem c2_locator_searches_strict_ancestors
    (gitDirs : List (List String)) (p : List String) :
    find_repo_root gitDirs p = (searchChain p).find? (fun q => decide (q ∈ gitDirs)) := by
  induction p with
  | nil => rfl
  | cons c rest ih =>
    by_cases h : (c :: rest) ∈ gitDirs
    · simp [find_repo_root, searchChain, List.find?, h]
    · simp [find_repo_root, searchChain, List.find?, h, ih]

/-- Claim C3 counterexample: the candidate AAAAAA of length six is selected
against stored ids of which it is not a case-sensitive character-for-character
prefix, because the LIKE query folds ASCII case. -/
theorem c3_like_not_case_sensitive :
    prefixMatches dbW ("AAAAAA") = [idA, idB] ∧
    (("AAAAAA").data.isPrefixOf idA.data) = false := by
  exact ⟨by decide, by decide⟩

/-- Claim C3 (amended): for candidates of length in [6, 36) free of the LIKE
wildcard characters, prefix resolution selects exactly the stored ids whose
ASCII-case-folded form begins with the candidate's ASCII-case-folded form
(case-insensitive, not case-sensitive matching); and candidates of length
at least 36 skip prefix resolution entirely: cmd_show treats them as
already-full ids and looks them up exactly. -/
theorem c3_resolution_like_semantics :
    (∀ (db : Database) (pfx : String), 6 ≤ pfx.length → pfx.length < 36 →
      (∀ c ∈ pfx.data, c ≠ '%' ∧ c ≠ '_') →
      prefixMatches db pfx = (db.intents.map (fun r => r.id)).filter
        (fun i => (pfx.data.map Char.toLower).isPrefixOf (i.data.map Char.toLower))) ∧
    (∀ (st : IntentState) (c : String), 36 ≤ c.length → cmd_show st c = show_exact st c) := by
  constructor
  · intro db pfx h6 h36 hw
    unfold prefixMatches
    apply List.filter_congr
    intro i hi
    have hdata : (pfx ++ ("%")).data = pfx.data ++ [('%')] := by
      rw [String.data_append]
    rw [hdata, likeMatch_noWild pfx.data hw i.data]
  · intro st c hc
    unfold cmd_show show_exact
    cases hst : st.db with
    | none => rfl
    | some db =>
      have hcond : ¬ (6 ≤ c.length ∧ c.length < 36) := by omega
      simp only [if_neg hcond]

/-- Witness for claim C3 at concrete inputs. -/
theorem c3_resolution_like_semantics_witness :
    prefixMatches dbW ("aaaaaa") = (dbW.intents.map (fun r => r.id)).filter
      (fun i => (("aaaaaa").data.map Char.toLower).isPrefixOf (i.data.map Char.toLower)) ∧
    cmd_show stW idA = show_exact stW idA := by
  exact ⟨c3_resolution_like_semantics.1 dbW ("aaaaaa") (by decide) (by decide) (by decide),
    c3_resolution_like_semantics.2 stW idA (by decide)⟩

/-- Helper: a string appears in the concatenation that puts it at the end. -/
theorem containsData_append_right (a x : String) : containsData (a ++ x) x := by
  refine ⟨a.data, [], ?_⟩
  simp [String.data_append]

/-- Helper: substring containment survives appending on the right. -/
theorem containsData_extend_right (s x t : String) (h : containsData s x) :
    containsData (s ++ t) x := by
  obtain ⟨a, b, hab⟩ := h
  exact ⟨a, b ++ t.data, by simp [String.data_append, hab]⟩

/-- Helper: substring containment survives appending on the left. -/
theorem containsData_extend_left (t s x : String) (h : containsData s x) :
    containsData (t ++ s) x := by
  obtain ⟨a, b, hab⟩ := h
  exact ⟨t.data ++ a, b, by simp [String.data_append, hab]⟩

/-- Helper: a joined list contains each of its elements as a substring. -/
theorem joinSep_containsData (sep : String) (l : List String) (x : String) (hx : x ∈ l) :
    containsData (joinSep sep l) x := by
  induction l with
  | nil => cases hx
  | cons y ys ih =>
    rcases List.mem_cons.mp hx with rfl | hmem
    · by_cases hys : ys.isEmpty
      · exact ⟨[], [], by simp [joinSep, hys]⟩
      · refine ⟨[], (sep ++ joinSep sep ys).data, ?_⟩
        simp [joinSep, hys, String.data_append, List.append_assoc]
    · have hys : ys.isEmpty = false := by
        cases ys with
        | nil => cases hmem
        | cons z zs => rfl
      have hys2 : ¬ ys.isEmpty = true := by simp [hys]
      obtain ⟨a, b, hab⟩ := ih hmem
      refine ⟨(y ++ sep).data ++ a, b, ?_⟩
      simp [joinSep, hys2, String.data_append, hab, List.append_assoc]

/-- Helper: the not-found message of find_intent_by_prefix names the prefix. -/
theorem notFoundMsg_contains (pfx : String) : containsData (notFoundMsg pfx) pfx := by
  unfold notFoundMsg
  exact containsData_extend_right _ _ _ (containsData_append_right _ _)

/-- Helper: the not-found message of cmd_show names the candidate id. -/
theorem intentNotFoundMsg_contains (iid : String) :
    containsData (intentNotFoundMsg iid) iid := by
  unfold intentNotFoundMsg
  exact containsData_extend_right _ _ _ (containsData_append_right _ _)

/-- Helper: the ambiguity message of find_intent_by_prefix names the prefix. -/
theorem ambiguousMsg_contains_pfx (pfx : String) (ms : List String) :
    containsData (ambiguousMsg pfx ms) pfx := by
  unfold ambiguousMsg
  exact containsData_extend_right _ _ _ (containsData_extend_right _ _ _
    (containsData_extend_right _ _ _ (containsData_extend_right _ _ _
      (containsData_append_right _ _))))

/-- Helper: the ambiguity message of find_intent_by_prefix lists every
matching id. -/
theorem ambiguousMsg_contains_match (pfx : String) (ms : List String) (z : String)
    (hz : z ∈ ms) : containsData (ambiguousMsg pfx ms) z := by
  unfold ambiguousMsg
  exact containsData_extend_left _ _ _ (joinSep_containsData _ ms z hz)

/-- Claim C6: for a candidate prefix of length in [6, 36), against a database
whose intents table exists, resolution fails with a not-found error naming
the prefix when no stored id matches, returns the unique matching full id
when exactly one matches, and fails with an ambiguity error naming the
prefix and listing every matching full id when two or more match. -/
theorem c6_resolution_trichotomy (db : Database) (pfx : String)
    (h6 : 6 ≤ pfx.length) (h36 : pfx.length < 36)
    (htab : ("intents") ∈ db.tables) :
    (prefixMatches db pfx = [] →
      find_intent_by_prefix db pfx = Except.error (notFoundMsg pfx) ∧
        containsData (notFoundMsg pfx) pfx) ∧
    (∀ x, prefixMatches db pfx = [x] → find_intent_by_prefix db pfx = Except.ok x) ∧
    (∀ x y rest, prefixMatches db pfx = x :: y :: rest →
      find_intent_by_prefix db pfx = Except.error (ambiguousMsg pfx (x :: y :: rest)) ∧
        containsData (ambiguousMsg pfx (x :: y :: rest)) pfx ∧
        ∀ z ∈ x :: y :: rest, containsData (ambiguousMsg pfx (x :: y :: rest)) z) := by
  refine ⟨?_, ?_, ?_⟩
  · intro hm
    unfold find_intent_by_prefix
    rw [if_pos htab, hm]
    exact ⟨rfl, notFoundMsg_contains pfx⟩
  · intro x hm
    unfold find_intent_by_prefix
    rw [if_pos htab, hm]
  · intro x y rest hm
    unfold find_intent_by_prefix
    rw [if_pos htab, hm]
    exact ⟨rfl, ambiguousMsg_contains_pfx pfx _,
      fun z hz => ambiguousMsg_contains_match pfx _ z hz⟩

/-- Witness for claim C6: on the sample database, a prefix with no match, a
prefix with a unique match, and a prefix matching two ids. -/
theorem c6_resolution_trichotomy_witness :
    ( find_intent_by_prefix dbW ("zzzzzz") = Except.error (notFoundMsg ("zzzzzz")) ∧
      containsData (notFoundMsg ("zzzzzz")) ("zzzzzz")) ∧
    find_intent_by_prefix dbW ("bbbbbb") = Except.ok idC ∧
    ( find_intent_by_prefix dbW ("aaaaaa") = Except.error (ambiguousMsg ("aaaaaa") [idA, idB]) ∧
      containsData (ambiguousMsg ("aaaaaa") [idA, idB]) ("aaaaaa") ∧
      ∀ z ∈ [idA, idB], containsData (ambiguousMsg ("aaaaaa") [idA, idB]) z) := by
  refine ⟨(c6_resolution_trichotomy dbW ("zzzzzz") (by decide) (by decide) (by decide)).1
      (by decide),
    (c6_resolution_trichotomy dbW ("bbbbbb") (by decide) (by decide) (by decide)).2.1 idC
      (by decide),
    (c6_resolution_trichotomy dbW ("aaaaaa") (by decide) (by decide) (by decide)).2.2 idA idB []
      (by decide)⟩

/-- Claim C9: a show candidate shorter than six characters undergoes no
prefix resolution: it is looked up as an exact id, so even when it is a
proper prefix of exactly one stored 36-character id, cmd_show fails with a
not-found error naming the candidate. -/
theorem c9_short_id_exact_lookup (st : IntentState) (db : Database) (c : String)
    (hdb : st.db = some db) (htab : ("intents") ∈ db.tables)
    (hlen : c.length < 6)
    (hids : ∀ r ∈ db.intents, r.id.length = 36)
    (huniq : (db.intents.filter (fun r => c.data.isPrefixOf r.id.data)).length = 1) :
    cmd_show st c = Except.error (intentNotFoundMsg c) ∧
      containsData (intentNotFoundMsg c) c := by
  have hcond : ¬ (6 ≤ c.length ∧ c.length < 36) := by omega
  have hnone : db.intents.find? (fun r => r.id == c) = none := by
    rw [List.find?_eq_none]
    intro r hr hbeq
    have hid : r.id = c := by simpa using hbeq
    have h36 : r.id.length = 36 := hids r hr
    rw [hid] at h36
    omega
  refine ⟨?_, intentNotFoundMsg_contains c⟩
  unfold cmd_show
  rw [hdb]
  simp only [if_neg hcond, if_pos htab, hnone]

/-- Witness for claim C9: the candidate bbb is a proper prefix of exactly
one stored 36-character id yet show reports it not found. -/
theorem c9_short_id_exact_lookup_witness :
    cmd_show stW ("bbb") = Except.error (intentNotFoundMsg ("bbb")) ∧
      containsData (intentNotFoundMsg ("bbb")) ("bbb") :=
  c9_short_id_exact_lookup stW dbW ("bbb") rfl (by decide) (by decide) (by decide) (by decide)

/-- Claim C4: creating an intent from a non-empty (already stripped) title,
arbitrary problem, context and constraints texts, a fresh 36-character id
and a timestamp, then showing it by the id the create operation returned,
yields a row whose title, problem, context and constraints equal the
stored inputs, whose status is the literal draft, and whose created_at
equals its updated_at (both are the insertion timestamp). -/
theorem c4_create_then_show_roundtrip (st : IntentState) (db : Database)
    (title problem ctx constr iid now : String)
    (hdb : st.db = some db) (htab : ("intents") ∈ db.tables)
    (htitle : pyStrip title = title) (hne : title ≠ "")
    (hlen : iid.length = 36)
    (hfresh : ∀ r ∈ db.intents, r.id ≠ iid) :
    ∃ st2, cmd_new st title problem ctx constr iid now = Except.ok (iid, st2) ∧
      cmd_show st2 iid = Except.ok
        { id := iid, title := title, problem := problem, context := ctx,
          constraints := constr, status := ("draft"), created_at := now,
          updated_at := now } := by
  have hany : (db.intents.any (fun r => r.id == iid)) = false := by
    rw [List.any_eq_false]
    intro r hr
    simp [hfresh r hr]
  have hnone : db.intents.find? (fun r => r.id == iid) = none := by
    rw [List.find?_eq_none]
    intro r hr hbeq
    exact hfresh r hr (by simpa using hbeq)
  refine ⟨{ st with db := some { db with intents :=
      db.intents ++ [newRec title problem ctx constr iid now] } }, ?_, ?_⟩
  · unfold cmd_new
    rw [hdb]
    simp only [htitle, if_neg hne, if_pos htab, hany, Bool.false_eq_true, if_false]
    rfl
  · unfold cmd_show
    have hcond : ¬ (6 ≤ iid.length ∧ iid.length < 36) := by omega
    simp only [if_neg hcond, if_pos htab, List.find?_append, hnone, Option.none_or,
      List.find?_cons, newRec, beq_self_eq_true, if_pos]

/-- Claim C5: initialization is idempotent: on a state whose .intent
directory exists, whose database file carries exactly the required table
set, and whose meta.json parses with the three required fields present,
running the init operation again raises no error and returns the whole
state unchanged: same directory, same tables and rows, same descriptor. -/
theorem c5_init_idempotent (st : IntentState) (db : Database) (j : Json)
    (hdir : st.dirExists = true)
    (hdb : st.db = some db)
    (htab : db.tables.Perm requiredTables)
    (hmeta : st.meta = MetaDoc.doc j)
    (hfields : checkFields j = some true)
    (repoPath now : String) :
    init_intent_structure st repoPath now = Except.ok st := by
  obtain ⟨d, odb, m⟩ := st
  have hd : d = true := hdir
  have ho : odb = some db := hdb
  have hm : m = MetaDoc.doc j := hmeta
  subst hd ho hm
  have hfilter : requiredTables.filter (fun t => t ∈ db.tables) = requiredTables := by
    rw [List.filter_eq_self]
    intro t ht
    exact decide_eq_true (htab.mem_iff.mpr ht)
  have hens : ensure_database_schema (some db) = Except.ok db := by
    unfold ensure_database_schema
    simp [hfilter]
  have hmet : ensure_meta_json (MetaDoc.doc j) repoPath now = some (MetaDoc.doc j) := by
    simp only [ensure_meta_json, hfields]
  unfold init_intent_structure
  simp only [hens, hmet]

/-- Witness for claim C4 on an initialized empty database. -/
theorem c4_create_then_show_roundtrip_witness :
    ∃ st2, cmd_new stEmpty ("My title") ("P") ("C") ("K") idA ("2024-01-04T00:00:00") =
        Except.ok (idA, st2) ∧
      cmd_show st2 idA = Except.ok
        { id := idA, title := ("My title"), problem := ("P"), context := ("C"),
          constraints := ("K"), status := ("draft"), created_at := ("2024-01-04T00:00:00"),
          updated_at := ("2024-01-04T00:00:00") } :=
  c4_create_then_show_roundtrip stEmpty { tables := requiredTables, intents := [] }
    ("My title") ("P") ("C") ("K") idA ("2024-01-04T00:00:00")
    rfl (by decide) (by decide) (by decide) (by decide) (by decide)

/-- Witness for claim C5 on the sample initialized state. -/
theorem c5_init_idempotent_witness :
    init_intent_structure stW ("/repo") ("2024-01-05T00:00:00") = Except.ok stW :=
  c5_init_idempotent stW dbW metaW rfl rfl (List.Perm.refl _) rfl rfl
    ("/repo") ("2024-01-05T00:00:00")

/-- Helper: inserting into the descending sort keeps the row multiset. -/
theorem insertDesc_perm (r : IntentRecord) (l : List IntentRecord) :
    (insertDesc r l).Perm (r :: l) := by
  induction l with
  | nil => exact List.Perm.refl _
  | cons x xs ih =>
    by_cases h : x.created_at ≤ r.created_at
    · simp [insertDesc, h]
    · simp only [insertDesc, if_neg h]
      exact (ih.cons x).trans (List.Perm.swap r x xs)

/-- Helper: the descending sort keeps the row multiset. -/
theorem sortByCreatedDesc_perm (l : List IntentRecord) :
    (sortByCreatedDesc l).Perm l := by
  induction l with
  | nil => exact List.Perm.refl _
  | cons x xs ih =>
    exact (insertDesc_perm x (sortByCreatedDesc xs)).trans (ih.cons x)

/-- Helper: inserting into a descending-sorted list keeps it sorted. -/
theorem insertDesc_pairwise (r : IntentRecord) (l : List IntentRecord)
    (hl : List.Pairwise (fun a b => b.created_at ≤ a.created_at) l) :
    List.Pairwise (fun a b => b.created_at ≤ a.created_at) (insertDesc r l) := by
  induction l with
  | nil => simp [insertDesc]
  | cons x xs ih =>
    obtain ⟨hx, hxs⟩ := List.pairwise_cons.mp hl
    by_cases h : x.created_at ≤ r.created_at
    · simp only [insertDesc, if_pos h]
      refine List.pairwise_cons.mpr ⟨?_, hl⟩
      intro y hy
      rcases List.mem_cons.mp hy with rfl | hmem
      · exact h
      · exact le_trans (hx y hmem) h
    · simp only [insertDesc, if_neg h]
      refine List.pairwise_cons.mpr ⟨?_, ih hxs⟩
      intro y hy
      rcases List.mem_cons.mp ((insertDesc_perm r xs).mem_iff.mp hy) with rfl | hmem
      · exact le_of_not_le h
      · exact hx y hmem

/-- Helper: the descending sort is sorted on created_at. -/
theorem sortByCreatedDesc_pairwise (l : List IntentRecord) :
    List.Pairwise (fun a b => b.created_at ≤ a.created_at) (sortByCreatedDesc l) := by
  induction l with
  | nil => simp [sortByCreatedDesc]
  | cons x xs ih => exact insertDesc_pairwise x _ ih

/-- Claim C7: on a database whose intents table exists, listing succeeds and
returns exactly the stored rows (projected to the selected columns id,
title, status and created_at) — a permutation of the table contents —
ordered by created_at descending, so any later-created row precedes any
earlier-created one. -/
theorem c7_list_ordered_desc (st : IntentState) (db : Database)
    (hdb : st.db = some db) (htab : ("intents") ∈ db.tables) :
    ∃ l, cmd_list st = Except.ok l ∧
      l.Perm (db.intents.map listRow) ∧
      List.Pairwise (fun a b => b.2.2.2 ≤ a.2.2.2) l := by
  refine ⟨(sortByCreatedDesc db.intents).map listRow, ?_, ?_, ?_⟩
  · unfold cmd_list
    rw [hdb]
    simp only [if_pos htab]
  · exact (sortByCreatedDesc_perm db.intents).map listRow
  · rw [List.pairwise_map]
    exact sortByCreatedDesc_pairwise db.intents

/-- Witness for claim C7 on the sample database. -/
theorem c7_list_ordered_desc_witness :
    ∃ l, cmd_list stW = Except.ok l ∧
      l.Perm (dbW.intents.map listRow) ∧
      List.Pairwise (fun a b => b.2.2.2 ≤ a.2.2.2) l :=
  c7_list_ordered_desc stW dbW rfl (by decide)

/-- Helper: the Python in operator on an object document tests key
membership. -/
theorem any_key_iff (l : List (String × Json)) (name : String) :
    (l.any (fun p => p.1 == name)) = true ↔ name ∈ l.map Prod.fst := by
  rw [List.any_eq_true]
  constructor
  · rintro ⟨p, hp, hbeq⟩
    exact List.mem_map.mpr ⟨p, hp, by simpa using hbeq⟩
  · intro hm
    rcases List.mem_map.mp hm with ⟨p, hp, he⟩
    exact ⟨p, hp, by simpa using he⟩

/-- Helper: boolean form of the key presence test. -/
theorem any_key_eq_decide (l : List (String × Json)) (name : String) :
    (l.any (fun p => p.1 == name)) = decide (name ∈ l.map Prod.fst) := by
  by_cases h : name ∈ l.map Prod.fst
  · rw [((any_key_iff l name).mpr h : _ = true), decide_eq_true h]
  · have hfalse : (l.any (fun p => p.1 == name)) = false := by
      rw [← Bool.not_eq_true]
      exact fun hc => h ((any_key_iff l name).mp hc)
    rw [hfalse, decide_eq_false h]

/-- Helper: the field check on an object document decides presence of the
three required keys. -/
theorem checkFields_jobj (l : List (String × Json)) :
    checkFields (Json.jobj l) =
      some (decide ((("repo_path") ∈ l.map Prod.fst) ∧ (("created_at") ∈ l.map Prod.fst) ∧
        (("schema_version") ∈ l.map Prod.fst))) := by
  have hred : checkFields (Json.jobj l) =
      (if (l.any (fun p => p.1 == ("repo_path"))) then
        (if (l.any (fun p => p.1 == ("created_at"))) then
          some (l.any (fun p => p.1 == ("schema_version")))
        else some false)
      else some false) := rfl
  rw [hred, any_key_eq_decide, any_key_eq_decide, any_key_eq_decide]
  by_cases hA : ("repo_path") ∈ l.map Prod.fst <;>
    by_cases hB : ("created_at") ∈ l.map Prod.fst <;>
      by_cases hC : ("schema_version") ∈ l.map Prod.fst <;>
        simp [hA, hB, hC]

/-- Helper: Python substring membership as an existential decomposition. -/
theorem isSubChars_true_iff (pat : List Char) (s : List Char) :
    isSubChars pat s = true ↔ ∃ a b, s = a ++ pat ++ b := by
  induction s with
  | nil =>
    simp only [isSubChars, List.isEmpty_iff]
    constructor
    · intro h
      exact ⟨[], [], by simp [h]⟩
    · rintro ⟨a, b, hab⟩
      rcases List.append_eq_nil.mp hab.symm with ⟨h1, rfl⟩
      rcases List.append_eq_nil.mp h1 with ⟨rfl, rfl⟩
      rfl
  | cons c s ih =>
    simp only [isSubChars, Bool.or_eq_true, isPrefixOf_true_iff, ih]
    constructor
    · rintro (⟨t, ht⟩ | ⟨a, b, hab⟩)
      · exact ⟨[], t, by simp [ht]⟩
      · exact ⟨c :: a, b, by simp [hab]⟩
    · rintro ⟨a, b, hab⟩
      cases a with
      | nil => exact Or.inl ⟨b, by simpa using hab⟩
      | cons a0 as =>
        injection hab with h1 h2
        exact Or.inr ⟨as, b, h2⟩

/-- Helper: Python substring membership on strings is substring
containment. -/
theorem strContainsSub_true_iff (s pat : String) :
    strContainsSub s pat = true ↔ containsData s pat := by
  unfold strContainsSub containsData
  exact isSubChars_true_iff pat.data s.data

/-- Claim C8 counterexample: a descriptor parsing to the JSON string
"repo_path created_at schema_version" has none of the three required
fields (it is not even an object), yet ensure_meta_json leaves it
unchanged instead of rewriting it, because the Python in operator on a
string degenerates to a substring test. -/
theorem c8_string_doc_left_unchanged :
    ensure_meta_json
        (MetaDoc.doc (Json.jstr ("repo_path created_at schema_version")))
        ("/repo") ("2024-01-01T00:00:00") =
      some (MetaDoc.doc (Json.jstr ("repo_path created_at schema_version"))) ∧
    hasFieldSpec (Json.jstr ("repo_path created_at schema_version")) ("repo_path") = false ∧
    hasFieldSpec (Json.jstr ("repo_path created_at schema_version")) ("created_at") = false ∧
    hasFieldSpec (Json.jstr ("repo_path created_at schema_version")) ("schema_version") = false := by
  exact ⟨rfl, rfl, rfl, rfl⟩

/-- Claim C8 (amended): ensure_meta_json rewrites a missing, blank or
unparsable descriptor with the fresh metadata; a descriptor parsed to an
object is left unchanged exactly when the three required keys are present,
whatever their values; but the presence check is Python's in operator on
the parsed value, so a descriptor parsed to a string is left unchanged
exactly when it contains the three field names as substrings, although it
has no fields at all, and a descriptor parsed to a number, boolean or null
makes the check raise an uncaught TypeError instead of rewriting. -/
theorem c8_meta_presence_semantics (rp now : String) :
    ensure_meta_json MetaDoc.missing rp now = some (MetaDoc.doc (freshMeta rp now)) ∧
    ensure_meta_json MetaDoc.blank rp now = some (MetaDoc.doc (freshMeta rp now)) ∧
    ensure_meta_json MetaDoc.malformed rp now = some (MetaDoc.doc (freshMeta rp now)) ∧
    (∀ l : List (String × Json),
      (ensure_meta_json (MetaDoc.doc (Json.jobj l)) rp now = some (MetaDoc.doc (Json.jobj l)) ↔
        ((("repo_path") ∈ l.map Prod.fst) ∧ (("created_at") ∈ l.map Prod.fst) ∧
          (("schema_version") ∈ l.map Prod.fst)))) ∧
    (∀ s : String,
      (ensure_meta_json (MetaDoc.doc (Json.jstr s)) rp now = some (MetaDoc.doc (Json.jstr s)) ↔
        (containsData s ("repo_path") ∧ containsData s ("created_at") ∧
          containsData s ("schema_version")))) ∧
    (∀ n : Int, ensure_meta_json (MetaDoc.doc (Json.jnum n)) rp now = none) ∧
    (∀ b : Bool, ensure_meta_json (MetaDoc.doc (Json.jbool b)) rp now = none) ∧
    ensure_meta_json (MetaDoc.doc Json.jnull) rp now = none := by
  refine ⟨rfl, rfl, rfl, ?_, ?_, fun n => rfl, fun b => rfl, rfl⟩
  · intro l
    by_cases hk : (("repo_path") ∈ l.map Prod.fst) ∧ (("created_at") ∈ l.map Prod.fst) ∧
        (("schema_version") ∈ l.map Prod.fst)
    · have hres : ensure_meta_json (MetaDoc.doc (Json.jobj l)) rp now =
          some (MetaDoc.doc (Json.jobj l)) := by
        simp [ensure_meta_json, checkFields_jobj, decide_eq_true hk]
      rw [hres]
      simp [hk]
    · have hres : ensure_meta_json (MetaDoc.doc (Json.jobj l)) rp now =
          some (MetaDoc.doc (freshMeta rp now)) := by
        simp [ensure_meta_json, checkFields_jobj, decide_eq_false hk]
      rw [hres]
      constructor
      · intro he
        injection he with he1
        injection he1 with he2
        unfold freshMeta at he2
        injection he2 with he3
        exact absurd (by rw [← he3]; simp) hk
      · intro hc
        exact absurd hc hk
  · intro s
    cases hA : strContainsSub s ("repo_path") with
    | false =>
      have hres : ensure_meta_json (MetaDoc.doc (Json.jstr s)) rp now =
          some (MetaDoc.doc (freshMeta rp now)) := by
        simp [ensure_meta_json, checkFields, pyIn, hA]
      rw [hres]
      constructor
      · intro he
        injection he with he1
        injection he1 with he2
        exact Json.noConfusion he2
      · rintro ⟨hc, _, _⟩
        rw [← strContainsSub_true_iff, hA] at hc
        cases hc
    | true =>
      cases hB : strContainsSub s ("created_at") with
      | false =>
        have hres : ensure_meta_json (MetaDoc.doc (Json.jstr s)) rp now =
            some (MetaDoc.doc (freshMeta rp now)) := by
          simp [ensure_meta_json, checkFields, pyIn, hA, hB]
        rw [hres]
        constructor
        · intro he
          injection he with he1
          injection he1 with he2
          exact Json.noConfusion he2
        · rintro ⟨_, hc, _⟩
          rw [← strContainsSub_true_iff, hB] at hc
          cases hc
      | true =>
        cases hC : strContainsSub s ("schema_version") with
        | false =>
          have hres : ensure_meta_json (MetaDoc.doc (Json.jstr s)) rp now =
              some (MetaDoc.doc (freshMeta rp now)) := by
            simp [ensure_meta_json, checkFields, pyIn, hA, hB, hC]
          rw [hres]
          constructor
          · intro he
            injection he with he1
            injection he1 with he2
            exact Json.noConfusion he2
          · rintro ⟨_, _, hc⟩
            rw [← strContainsSub_true_iff, hC] at hc
            cases hc
        | true =>
          have hres : ensure_meta_json (MetaDoc.doc (Json.jstr s)) rp now =
              some (MetaDoc.doc (Json.jstr s)) := by
            simp [ensure_meta_json, checkFields, pyIn, hA, hB, hC]
          rw [hres]
          constructor
          · intro _
            exact ⟨(strContainsSub_true_iff s _).mp hA, (strContainsSub_true_iff s _).mp hB,
              (strContainsSub_true_iff s _).mp hC⟩
          · intro _
            rfl

/-- Helper: taking eight characters of an append stays in a long-enough
first part. -/
theorem take8_append (l1 l2 : List Char) (h : 8 ≤ l1.length) :
    (l1 ++ l2).take 8 = l1.take 8 := by
  rw [List.take_append_eq_append_take, Nat.sub_eq_zero_of_le h, List.take_zero, List.append_nil]

/-- Helper: strings whose first eight characters differ are different. -/
theorem string_ne_of_take8 (s t : String) (h : s.data.take 8 ≠ t.data.take 8) : s ≠ t :=
  fun he => h (by rw [he])

/-- Helper: the schema mismatch message always starts the same way. -/
theorem mismatchError_take8 (missing extra : List String) :
    (mismatchError missing extra).data.take 8 = ("ERROR: D").data := by
  unfold mismatchError
  rw [String.data_append, String.data_append, String.data_append,
    List.append_assoc, List.append_assoc, take8_append _ _ (by decide)]
  decide

/-- Helper: the prefix-not-found message starts differently. -/
theorem notFoundMsg_take8 (pfx : String) :
    (notFoundMsg pfx).data.take 8 = ("ERROR: N").data := by
  unfold notFoundMsg
  rw [String.data_append, String.data_append, List.append_assoc, take8_append _ _ (by decide)]
  decide

/-- Helper: the ambiguity message starts differently. -/
theorem ambiguousMsg_take8 (pfx : String) (ms : List String) :
    (ambiguousMsg pfx ms).data.take 8 = ("ERROR: A").data := by
  unfold ambiguousMsg
  rw [String.data_append, String.data_append, String.data_append, String.data_append,
    String.data_append, List.append_assoc, List.append_assoc, List.append_assoc,
    List.append_assoc, take8_append _ _ (by decide)]
  decide

/-- Helper: the id-not-found message starts differently. -/
theorem intentNotFoundMsg_take8 (iid : String) :
    (intentNotFoundMsg iid).data.take 8 = ("ERROR: I").data := by
  unfold intentNotFoundMsg
  rw [String.data_append, String.data_append, List.append_assoc, take8_append _ _ (by decide)]
  decide

/-- Helper: the not-initialized message is not the mismatch message. -/
theorem notInit_ne_mismatch (m e : List String) : notInitMsg ≠ mismatchError m e :=
  string_ne_of_take8 _ _ (by rw [mismatchError_take8]; decide)

/-- Helper: the missing-table message is not the mismatch message. -/
theorem noSuchTable_ne_mismatch (m e : List String) : noSuchTableMsg ≠ mismatchError m e :=
  string_ne_of_take8 _ _ (by rw [mismatchError_take8]; decide)

/-- Helper: the title-required message is not the mismatch message. -/
theorem titleRequired_ne_mismatch (m e : List String) : titleRequiredMsg ≠ mismatchError m e :=
  string_ne_of_take8 _ _ (by rw [mismatchError_take8]; decide)

/-- Helper: the primary-key message is not the mismatch message. -/
theorem integrity_ne_mismatch (m e : List String) : integrityMsg ≠ mismatchError m e :=
  string_ne_of_take8 _ _ (by rw [mismatchError_take8]; decide)

/-- Helper: the prefix-not-found message is not the mismatch message. -/
theorem notFound_ne_mismatch (p : String) (m e : List String) :
    notFoundMsg p ≠ mismatchError m e :=
  string_ne_of_take8 _ _ (by rw [notFoundMsg_take8, mismatchError_take8]; decide)

/-- Helper: the ambiguity message is not the mismatch message. -/
theorem ambiguous_ne_mismatch (p : String) (ms m e : List String) :
    ambiguousMsg p ms ≠ mismatchError m e :=
  string_ne_of_take8 _ _ (by rw [ambiguousMsg_take8, mismatchError_take8]; decide)

/-- Helper: the id-not-found message is not the mismatch message. -/
theorem intentNotFound_ne_mismatch (i : String) (m e : List String) :
    intentNotFoundMsg i ≠ mismatchError m e :=
  string_ne_of_take8 _ _ (by rw [intentNotFoundMsg_take8, mismatchError_take8]; decide)

/-- Helper: prefix resolution only reads the intents rows and the presence
of the intents table. -/
theorem find_intent_congr (db1 db2 : Database) (pfx : String)
    (hrows : db1.intents = db2.intents)
    (htab : (("intents") ∈ db1.tables) ↔ (("intents") ∈ db2.tables)) :
    find_intent_by_prefix db1 pfx = find_intent_by_prefix db2 pfx := by
  unfold find_intent_by_prefix prefixMatches
  rw [hrows]
  by_cases h : ("intents") ∈ db1.tables
  · rw [if_pos h, if_pos (htab.mp h)]
  · rw [if_neg h, if_neg (fun hh => h (htab.mpr hh))]

/-- Helper: prefix resolution never produces the schema mismatch message. -/
theorem find_intent_not_mismatch (db : Database) (pfx : String) (m e : List String) :
    find_intent_by_prefix db pfx ≠ Except.error (mismatchError m e) := by
  unfold find_intent_by_prefix
  by_cases hm : ("intents") ∈ db.tables
  · rw [if_pos hm]
    cases hp : prefixMatches db pfx with
    | nil =>
      intro hc
      injection hc with hmsg
      exact notFound_ne_mismatch pfx m e hmsg
    | cons x rest =>
      cases rest with
      | nil =>
        intro hc
        exact Except.noConfusion hc
      | cons y rest2 =>
        intro hc
        injection hc with hmsg
        exact ambiguous_ne_mismatch pfx (x :: y :: rest2) m e hmsg
  · rw [if_neg hm]
    intro hc
    injection hc with hmsg
    exact noSuchTable_ne_mismatch m e hmsg

/-- Helper: show behaves the same on databases differing only outside the
intents table and meta.json. -/
theorem cmd_show_congr (st1 st2 : IntentState) (db1 db2 : Database) (c : String)
    (h1 : st1.db = some db1) (h2 : st2.db = some db2)
    (hrows : db1.intents = db2.intents)
    (htab : (("intents") ∈ db1.tables) ↔ (("intents") ∈ db2.tables)) :
    cmd_show st1 c = cmd_show st2 c := by
  unfold cmd_show
  rw [h1, h2]
  simp only [find_intent_congr db1 db2 c hrows htab, hrows, htab]

/-- Helper: show never produces the schema mismatch message when intent.db
exists. -/
theorem cmd_show_not_mismatch (st : IntentState) (db : Database) (c : String)
    (h : st.db = some db) (m e : List String) :
    cmd_show st c ≠ Except.error (mismatchError m e) := by
  unfold cmd_show
  rw [h]
  by_cases hlen : 6 ≤ c.length ∧ c.length < 36
  · simp only [if_pos hlen]
    cases hf : find_intent_by_prefix db c with
    | error msg =>
      simp only [hf]
      intro hc
      injection hc with hmsg
      rw [hmsg] at hf
      exact find_intent_not_mismatch db c m e hf
    | ok iid =>
      simp only [hf]
      by_cases hmem : ("intents") ∈ db.tables
      · simp only [if_pos hmem]
        cases hfind : db.intents.find? (fun r => r.id == iid) with
        | some r =>
          simp only [hfind]
          intro hc
          exact Except.noConfusion hc
        | none =>
          simp only [hfind]
          intro hc
          injection hc with hmsg
          exact intentNotFound_ne_mismatch iid m e hmsg
      · simp only [if_neg hmem]
        intro hc
        injection hc with hmsg
        exact noSuchTable_ne_mismatch m e hmsg
  · simp only [if_neg hlen]
    by_cases hmem : ("intents") ∈ db.tables
    · simp only [if_pos hmem]
      cases hfind : db.intents.find? (fun r => r.id == c) with
      | some r =>
        simp only [hfind]
        intro hc
        exact Except.noConfusion hc
      | none =>
        simp only [hfind]
        intro hc
        injection hc with hmsg
        exact intentNotFound_ne_mismatch c m e hmsg
    · simp only [if_neg hmem]
      intro hc
      injection hc with hmsg
      exact noSuchTable_ne_mismatch m e hmsg

/-- Helper: list behaves the same on databases differing only outside the
intents table and meta.json. -/
theorem cmd_list_congr (st1 st2 : IntentState) (db1 db2 : Database)
    (h1 : st1.db = some db1) (h2 : st2.db = some db2)
    (hrows : db1.intents = db2.intents)
    (htab : (("intents") ∈ db1.tables) ↔ (("intents") ∈ db2.tables)) :
    cmd_list st1 = cmd_list st2 := by
  unfold cmd_list
  rw [h1, h2]
  simp only [hrows, htab]

/-- Helper: list never produces the schema mismatch message when intent.db
exists. -/
theorem cmd_list_not_mismatch (st : IntentState) (db : Database)
    (h : st.db = some db) (m e : List String) :
    cmd_list st ≠ Except.error (mismatchError m e) := by
  unfold cmd_list
  rw [h]
  by_cases hm : ("intents") ∈ db.tables
  · simp only [if_pos hm]
    intro hc
    exact Except.noConfusion hc
  · simp only [if_neg hm]
    intro hc
    injection hc with hmsg
    exact noSuchTable_ne_mismatch m e hmsg

/-- Helper: the observable outcome of new (returned id, resulting rows)
is the same on databases differing only outside the intents table and
meta.json. -/
theorem cmd_new_congr (st1 st2 : IntentState) (db1 db2 : Database)
    (title problem ctx constr iid now : String)
    (h1 : st1.db = some db1) (h2 : st2.db = some db2)
    (hrows : db1.intents = db2.intents)
    (htab : (("intents") ∈ db1.tables) ↔ (("intents") ∈ db2.tables)) :
    Except.map (fun p => (p.1, intentsOf p.2)) (cmd_new st1 title problem ctx constr iid now) =
      Except.map (fun p => (p.1, intentsOf p.2)) (cmd_new st2 title problem ctx constr iid now) := by
  unfold cmd_new
  rw [h1, h2]
  simp only [hrows, htab]
  by_cases ht : pyStrip title = ""
  · simp only [if_pos ht]
  · simp only [if_neg ht]
    by_cases hm : ("intents") ∈ db2.tables
    · simp only [if_pos hm]
      by_cases hd : (db2.intents.any (fun r => r.id == iid)) = true
      · simp only [if_pos hd]
      · simp only [if_neg hd, Except.map, intentsOf]
    · simp only [if_neg hm]

/-- Helper: new never produces the schema mismatch message when intent.db
exists. -/
theorem cmd_new_not_mismatch (st : IntentState) (db : Database)
    (title problem ctx constr iid now : String)
    (h : st.db = some db) (m e : List String) :
    cmd_new st title problem ctx constr iid now ≠ Except.error (mismatchError m e) := by
  unfold cmd_new
  rw [h]
  by_cases ht : pyStrip title = ""
  · simp only [if_pos ht]
    intro hc
    injection hc with hmsg
    exact titleRequired_ne_mismatch m e hmsg
  · simp only [if_neg ht]
    by_cases hm : ("intents") ∈ db.tables
    · simp only [if_pos hm]
      by_cases hd : (db.intents.any (fun r => r.id == iid)) = true
      · simp only [if_pos hd]
        intro hc
        injection hc with hmsg
        exact integrity_ne_mismatch m e hmsg
      · simp only [if_neg hd]
        intro hc
        exact Except.noConfusion hc
    · simp only [if_neg hm]
      intro hc
      injection hc with hmsg
      exact noSuchTable_ne_mismatch m e hmsg

/-- Claim C10: new, list and show check only that the intent.db file exists
before acting.  Given the file, their observable outcomes depend only on
the presence of the intents table and on the intents rows — not on the
rest of the table set (schema drift) and not on meta.json — and none of
the three operations ever reports the schema mismatch error. -/
theorem c10_ops_ignore_schema_drift
    (st1 st2 : IntentState) (db1 db2 : Database)
    (title problem ctx constr iid now c : String)
    (h1 : st1.db = some db1) (h2 : st2.db = some db2)
    (hrows : db1.intents = db2.intents)
    (htab : (("intents") ∈ db1.tables) ↔ (("intents") ∈ db2.tables)) :
    (Except.map (fun p => (p.1, intentsOf p.2)) (cmd_new st1 title problem ctx constr iid now) =
      Except.map (fun p => (p.1, intentsOf p.2)) (cmd_new st2 title problem ctx constr iid now)) ∧
    cmd_list st1 = cmd_list st2 ∧
    cmd_show st1 c = cmd_show st2 c ∧
    (∀ missing extra : List String,
      cmd_new st1 title problem ctx constr iid now ≠ Except.error (mismatchError missing extra) ∧
      cmd_list st1 ≠ Except.error (mismatchError missing extra) ∧
      cmd_show st1 c ≠ Except.error (mismatchError missing extra)) := by
  refine ⟨cmd_new_congr st1 st2 db1 db2 title problem ctx constr iid now h1 h2 hrows htab,
    cmd_list_congr st1 st2 db1 db2 h1 h2 hrows htab,
    cmd_show_congr st1 st2 db1 db2 c h1 h2 hrows htab,
    fun missing extra => ⟨cmd_new_not_mismatch st1 db1 title problem ctx constr iid now h1
        missing extra,
      cmd_list_not_mismatch st1 db1 h1 missing extra,
      cmd_show_not_mismatch st1 db1 c h1 missing extra⟩⟩

/-- Witness for claim C10: the sample state and its drifted variant (extra
legacy table, missing meta.json) agree on all three operations. -/
theorem c10_ops_ignore_schema_drift_witness :
    (Except.map (fun p => (p.1, intentsOf p.2))
        (cmd_new stW ("T") ("P") ("C") ("K") idC ("2024-01-06T00:00:00")) =
      Except.map (fun p => (p.1, intentsOf p.2))
        (cmd_new stDrift ("T") ("P") ("C") ("K") idC ("2024-01-06T00:00:00"))) ∧
    cmd_list stW = cmd_list stDrift ∧
    cmd_show stW ("bbbbbb") = cmd_show stDrift ("bbbbbb") ∧
    (∀ missing extra : List String,
      cmd_new stW ("T") ("P") ("C") ("K") idC ("2024-01-06T00:00:00") ≠
        Except.error (mismatchError missing extra) ∧
      cmd_list stW ≠ Except.error (mismatchError missing extra) ∧
      cmd_show stW ("bbbbbb") ≠ Except.error (mismatchError missing extra)) :=
  c10_ops_ignore_schema_drift stW stDrift dbW
    { tables := requiredTables ++ [("legacy")], intents := [recA, recB, recC] }
    ("T") ("P") ("C") ("K") idC ("2024-01-06T00:00:00") ("bbbbbb")
    rfl rfl rfl (by decide)
